import Mathlib

/-!
Verification of the Maginator repository's holdings-resolution and NAV
projection engine (src/mags.py and src/mags2.py; the two files contain
character-identical definitions of every function modelled here).

Modelling conventions:
* Python floats are modelled as exact rationals (`ℚ`); all identities the
  spec states "within floating tolerance" are proved exactly in `ℚ`.
* Python dicts are modelled as association lists with unique keys in
  insertion order; `dictInsert` is `d[k] = v`, `dlookup` is `d.get(k)`.
* `str.strip()` / `str.upper()` are modelled by `pyStrip` / `pyUpper`
  (ASCII, which covers every key occurring in the program).
* Mutation claims are settled on an explicit heap model (`Heap`) in which
  every Python dict lives at a numeric reference and each statement of the
  source is compiled to a heap operation.
-/

def wsp (c : Char) : Bool :=
  c == ' ' || c == '\t' || c == '\n' || c == '\r' || c == '\x0b' || c == '\x0c'

def pyStrip (s : String) : String :=
  ⟨((s.data.dropWhile wsp).reverse.dropWhile wsp).reverse⟩

def pyUpper (s : String) : String :=
  ⟨s.data.map Char.toUpper⟩

/-- Python's `key.strip().upper()`, the key normalization used throughout the source. -/
def normKey (s : String) : String := pyUpper (pyStrip s)

/-- Python `d.get(k)` on a dict modelled as an association list. -/
def dlookup {α : Type} (k : String) : List (String × α) → Option α
  | [] => none
  | (k₁, v) :: rest => if k₁ = k then some v else dlookup k rest

/-- Python `d[k] = v`: replace in place if the key is present, else append. -/
def dictInsert {α : Type} (d : List (String × α)) (k : String) (v : α) : List (String × α) :=
  match d with
  | [] => [(k, v)]
  | (k₁, v₁) :: rest => if k₁ = k then (k, v) :: rest else (k₁, v₁) :: dictInsert rest k v

/-- Python `if k not in d: d[k] = 0.0` followed by `d[k] += v`. -/
def dictIncr (d : List (String × ℚ)) (k : String) (v : ℚ) : List (String × ℚ) :=
  match d with
  | [] => [(k, v)]
  | (k₁, v₁) :: rest => if k₁ = k then (k₁, v₁ + v) :: rest else (k₁, v₁) :: dictIncr rest k v

def MAG7_TICKERS : List String := ["NVDA", "AAPL", "MSFT", "GOOGL", "AMZN", "META", "TSLA"]

def NAME_TO_TICKER : List (String × String) :=
  [("NVIDIA", "NVDA"), ("Alphabet", "GOOGL"), ("AMAZON.COM INC", "AMZN"), ("Amazon", "AMZN"),
   ("Tesla", "TSLA"), ("Apple", "AAPL"), ("Microsoft", "MSFT"), ("Meta Platforms", "META"),
   ("Meta", "META")]

/-- Python `{k.strip().upper(): v for k, v in NAME_TO_TICKER.items()}`. -/
def NAME_TO_TICKER_NORM : List (String × String) :=
  NAME_TO_TICKER.foldl (fun acc p => dictInsert acc (normKey p.1) p.2) []

/-- `MAGSData` dataclass: `nav`, `date`, `holdings` (by ticker), `holdings_by_name`. -/
structure MAGSData where
  nav : Option ℚ
  date : String
  holdings : List (String × ℚ)
  holdings_by_name : List (String × ℚ)

/-- `_normalize`: `s = sum(weights.values()) or 1.0` then scale every value by `100 / s`. -/
def _normalize (weights : List (String × ℚ)) : List (String × ℚ) :=
  let s := if (weights.map Prod.snd).sum = 0 then 1 else (weights.map Prod.snd).sum
  weights.map (fun kv => (kv.1, kv.2 * 100 / s))

/-- One row of the what-if table. The source stores each numeric value formatted as a
string for display (`f"\x7bw:.2f\x7d"` and so on); the model keeps the computed numbers,
formatting being presentation only. -/
structure WhatIfRow where
  holding : String
  weight : ℚ
  move : ℚ
  contribBps : ℚ
  contribPct : ℚ
deriving DecidableEq, Repr

/-- Python `bumps_norm = {k.strip().upper(): float(v) for k, v in bumps.items()}`. -/
def normBumps (bumps : List (String × ℚ)) : List (String × ℚ) :=
  bumps.foldl (fun acc p => dictInsert acc (normKey p.1) p.2) []

/-- The move-resolution chain inside `compute_nav_what_if`:
`move = bumps_norm.get(keyU)`; if `None`, try the ticker `NAME_TO_TICKER_NORM.get(keyU)`
resolves to; if still `None`, `bumps_norm.get("ALL", 0.0)`. -/
def resolveMove (bn : List (String × ℚ)) (key : String) : ℚ :=
  let keyU := normKey key
  let m₁ :=
    match dlookup keyU bn with
    | some m => some m
    | none =>
      match dlookup keyU NAME_TO_TICKER_NORM with
      | some t => dlookup t bn
      | none => none
  match m₁ with
  | some m => m
  | none => (dlookup "ALL" bn).getD 0

/-- The loop body of `compute_nav_what_if` for one `(key, w)` pair:
`contrib_pct = (w * move) / 100.0`, with `w * move` reported as basis points. -/
def rowOf (bn : List (String × ℚ)) (kv : String × ℚ) : WhatIfRow :=
  let move := resolveMove bn kv.1
  ⟨kv.1, kv.2, move, kv.2 * move, kv.2 * move / 100⟩

/-- `holdings = data.holdings.copy()`; `if not holdings and data.holdings_by_name:`
use the by-name mapping instead. -/
def chosenHoldings (d : MAGSData) : List (String × ℚ) :=
  if d.holdings = [] ∧ d.holdings_by_name ≠ [] then d.holdings_by_name else d.holdings

/-- `compute_nav_what_if(data, bumps, assume_nav=None, normalize_weights=False)`.
The Python loop appends one row per holding and accumulates `total_contrib_pct`;
it is modelled as a map plus a sum. Returns `(rows, total_contrib_pct, base_nav, new_nav)`. -/
def compute_nav_what_if (d : MAGSData) (bumps : List (String × ℚ))
    (assume_nav : Option ℚ) (normalize_weights : Bool) :
    List WhatIfRow × ℚ × Option ℚ × Option ℚ :=
  let weights := if normalize_weights then _normalize (chosenHoldings d) else chosenHoldings d
  let bn := normBumps bumps
  let rows := weights.map (fun kv => rowOf bn kv)
  let total := (rows.map (fun r => r.contribPct)).sum
  let base := match d.nav with | some v => some v | none => assume_nav
  let proj := match base with | some b => some (b * (1 + total / 100)) | none => none
  (rows, total, base, proj)

/-- `_parse_bump_arg`'s regex anchors a key, a `:` or `=` separator, a signed decimal
number, an optional trailing `%`, and optional whitespace. These helpers spell out that
grammar on character lists. `breakSep` splits at the first `:` or `=`; `[^:=]+` forces at
least one character before the separator. -/
def breakSep : List Char → Option (List Char × List Char)
  | [] => none
  | c :: rest =>
    if c == ':' || c == '=' then some ([], rest)
    else
      match breakSep rest with
      | some (a, b) => some (c :: a, b)
      | none => none

def digitsToNat (cs : List Char) : Nat :=
  cs.foldl (fun n c => 10 * n + (c.toNat - 48)) 0

/-- The value side of `_parse_bump_arg`: `\s*([+-]?\d+(?:\.\d+)?)\s*%?\s*$`, returning
the parsed signed decimal when the remainder matches exactly. -/
def parseMoveNum (cs : List Char) : Option ℚ :=
  let cs₁ := cs.dropWhile wsp
  let sr : ℚ × List Char :=
    match cs₁ with
    | '+' :: r => (1, r)
    | '-' :: r => (-1, r)
    | r => (1, r)
  let intd := sr.2.takeWhile Char.isDigit
  let rest₁ := sr.2.dropWhile Char.isDigit
  if intd = [] then none
  else
    let vr : ℚ × List Char :=
      match rest₁ with
      | '.' :: r =>
        if r.takeWhile Char.isDigit = [] then ((digitsToNat intd : ℚ), rest₁)
        else ((digitsToNat intd : ℚ)
                + (digitsToNat (r.takeWhile Char.isDigit) : ℚ)
                  / (10 : ℚ) ^ (r.takeWhile Char.isDigit).length,
              r.dropWhile Char.isDigit)
      | r => ((digitsToNat intd : ℚ), r)
    let rest₂ := vr.2.dropWhile wsp
    let rest₃ := match rest₂ with | '%' :: r => r | r => r
    if rest₃.dropWhile wsp = [] then some (sr.1 * vr.1) else none

/-- `_parse_bump_arg(s)`: `None` when the regex rejects, else `(key.strip(), float(value))`. -/
def _parse_bump_arg (s : String) : Option (String × ℚ) :=
  match breakSep s.data with
  | none => none
  | some (pre, post) =>
    if pre = [] then none
    else
      match parseMoveNum post with
      | none => none
      | some v => some (pyStrip ⟨pre⟩, v)

def isSep (c : Char) : Bool := c == '\n' || c == ',' || c == ';'

/-- `re.split(r"[\n,;]+", block)` up to empty segments: splitting on every separator
character instead of runs inserts extra empty segments, and an empty segment never
matches the entry regex, so the resulting dict is the same. -/
def splitSeps : List Char → List (List Char)
  | [] => [[]]
  | c :: rest =>
    if isSep c then [] :: splitSeps rest
    else
      match splitSeps rest with
      | s :: ss => (c :: s) :: ss
      | [] => [[c]]

/-- `_parse_bumps_text(block)`: split, parse each entry, keep the ones the grammar
accepts (later duplicates overwrite). -/
def bumpsStep (out : List (String × ℚ)) (p : List Char) : List (String × ℚ) :=
  match _parse_bump_arg ⟨p⟩ with
  | some kv => dictInsert out kv.1 kv.2
  | none => out

def _parse_bumps_text (block : String) : List (String × ℚ) :=
  if block = "" then []
  else (splitSeps block.data).foldl bumpsStep []

/-- Modelled from the spec: the repository's CLI variant (not under src/) is the caller
that surfaces bump-entry warnings; per the spec a malformed line "is dropped with a
caller-visible warning" and "must not abort processing of the remaining lines". The
parsed entries come from `_parse_bumps_text` (src); the warnings component collects each
nonempty entry the grammar rejects, making the drops caller-visible. -/
def parse_bumps_text_with_warnings (block : String) : List (String × ℚ) × List String :=
  (_parse_bumps_text block,
   (splitSeps block.data).filterMap
     (fun p => if p ≠ [] ∧ _parse_bump_arg ⟨p⟩ = none then some (⟨p⟩ : String) else none))

/-- Python `needle in hay` on strings: contiguous-substring test. -/
def isPrefixChars : List Char → List Char → Bool
  | [], _ => true
  | _ :: _, [] => false
  | a :: as, b :: bs => a == b && isPrefixChars as bs

def containsChars (needle : List Char) : List Char → Bool
  | [] => isPrefixChars needle []
  | c :: rest => isPrefixChars needle (c :: rest) || containsChars needle rest

def containsSub (needle hay : String) : Bool := containsChars needle.data hay.data

/-- The ticker-matching block of `parse_mags_from_stockanalysis`: a direct symbol match,
else the ordered swap-name scan guarded by `"SWAP" in name` (names are upper-cased at
extraction). -/
def matched_ticker (symbol name : String) : Option String :=
  if symbol ∈ MAG7_TICKERS then some symbol
  else if containsSub "SWAP" name then
    if containsSub "NVDA" name || containsSub "NVIDIA" name then some "NVDA"
    else if containsSub "GOOGL" name || containsSub "ALPHABET" name then some "GOOGL"
    else if containsSub "AMZN" name || containsSub "AMAZON" name then some "AMZN"
    else if containsSub "TSLA" name || containsSub "TESLA" name then some "TSLA"
    else if containsSub "AAPL" name || containsSub "APPLE" name then some "AAPL"
    else if containsSub "MSFT" name || containsSub "MICROSOFT" name then some "MSFT"
    else if containsSub "META" name then some "META"
    else none
  else none

/-- The holdings loop of `parse_mags_from_stockanalysis` over extracted table rows
`(symbol, name, weight)`: upper-case the name (the source does this at cell extraction),
skip treasury/cash rows, skip falsy weights (`if not weight: continue`; absent weights
are likewise skipped and are not modelled separately), and accumulate each matched
ticker's weight in `mag7_holdings`. HTML-cell extraction and `_coerce_percent_to_float`
are the scraping boundary and stay outside the model. -/
def parseStep (acc : List (String × ℚ)) (r : String × String × ℚ) :
    List (String × ℚ) :=
  let name := pyUpper r.2.1
  if containsSub "TREASURY" name || containsSub "BILL" name || containsSub "CASH" name
      || containsSub "FUND" name then acc
  else if r.2.2 = (0 : ℚ) then acc
  else
    match matched_ticker r.1 name with
    | some t => dictIncr acc t r.2.2
    | none => acc

def parse_mags_from_stockanalysis_rows (rows : List (String × String × ℚ)) :
    List (String × ℚ) :=
  rows.foldl parseStep []

/-- The per-row contribution of one scraped row to ticker `t`, mirroring the loop's
guards; used to state what `parse_mags_from_stockanalysis_rows` accumulates. -/
def rowContrib (t : String) (r : String × String × ℚ) : Option ℚ :=
  let name := pyUpper r.2.1
  if containsSub "TREASURY" name || containsSub "BILL" name || containsSub "CASH" name
      || containsSub "FUND" name then none
  else if r.2.2 = (0 : ℚ) then none
  else
    match matched_ticker r.1 name with
    | some t₁ => if t₁ = t then some r.2.2 else none
    | none => none

/-- The name fragments the swap scan recognises for each of the seven tickers. -/
def swap_fragments : List (String × List String) :=
  [("NVDA", ["NVDA", "NVIDIA"]), ("GOOGL", ["GOOGL", "ALPHABET"]),
   ("AMZN", ["AMZN", "AMAZON"]), ("TSLA", ["TSLA", "TESLA"]), ("AAPL", ["AAPL", "APPLE"]),
   ("MSFT", ["MSFT", "MICROSOFT"]), ("META", ["META"])]

/-- The value the normalized-key dict comprehension ends up storing for key `q`: the
value of the last entry whose normalized key is `q`. Used to reason about `normBumps`. -/
def lastValNorm {α : Type} (q : String) : List (String × α) → Option α
  | [] => none
  | p :: l =>
    match lastValNorm q l with
    | some v => some v
    | none => if normKey p.1 = q then some p.2 else none

/-- Heap model for the mutation claims: every Python dict lives at a numeric reference;
allocation appends. Scalars (`nav`, strings) are immutable in Python and passed by
value. -/
abbrev Heap := List (List (String × ℚ))

def alloc (h : Heap) (d : List (String × ℚ)) : Heap × Nat := (h ++ [d], h.length)

/-- `_normalize` compiled against the heap: reads the argument dict, allocates the fresh
result dict built by the comprehension, and writes nothing else. -/
def _normalize_heap (h : Heap) (r : Nat) : Heap × Nat :=
  alloc h (_normalize (h.getD r []))

/-- `compute_nav_what_if` compiled statement-by-statement against the heap:
`data.holdings.copy()` allocates, the by-name fallback comprehension allocates,
`_normalize` allocates, `bumps_norm = {...}` allocates, and the loop only reads,
building its rows as fresh values. -/
def compute_nav_what_if_heap (h : Heap) (holdingsRef byNameRef bumpsRef : Nat)
    (nav assume_nav : Option ℚ) (normalize_weights : Bool) :
    Heap × (List WhatIfRow × ℚ × Option ℚ × Option ℚ) :=
  let a₁ := alloc h (h.getD holdingsRef [])
  let a₂ :=
    if a₁.1.getD a₁.2 [] = [] ∧ a₁.1.getD byNameRef [] ≠ [] then
      alloc a₁.1 (a₁.1.getD byNameRef [])
    else a₁
  let a₃ := if normalize_weights then _normalize_heap a₂.1 a₂.2 else a₂
  let a₄ := alloc a₃.1 (normBumps (a₃.1.getD bumpsRef []))
  let rows := (a₄.1.getD a₃.2 []).map (fun kv => rowOf (a₄.1.getD a₄.2 []) kv)
  let total := (rows.map (fun r => r.contribPct)).sum
  let base := match nav with | some v => some v | none => assume_nav
  let proj := match base with | some b => some (b * (1 + total / 100)) | none => none
  (a₄.1, (rows, total, base, proj))

/-! Dictionary lemmas. -/

theorem dlookup_dictInsert {α : Type} (d : List (String × α)) (k q : String) (v : α) :
    dlookup q (dictInsert d k v) = if k = q then some v else dlookup q d := by
  induction d with
  | nil => simp [dictInsert, dlookup]
  | cons p rest ih =>
    obtain ⟨k₁, v₁⟩ := p
    by_cases h : k₁ = k
    · subst h
      by_cases hq : k₁ = q <;> simp [dictInsert, dlookup, hq]
    · by_cases hq : k₁ = q
      · subst hq
        have hk : k ≠ k₁ := fun hh => h hh.symm
        simp [dictInsert, dlookup, h, hk]
      · simp [dictInsert, dlookup, h, hq, ih]

theorem dlookup_dictIncr (d : List (String × ℚ)) (k q : String) (v : ℚ) :
    dlookup q (dictIncr d k v)
      = if k = q then some ((dlookup q d).getD 0 + v) else dlookup q d := by
  induction d with
  | nil => by_cases h : k = q <;> simp [dictIncr, dlookup, h]
  | cons p rest ih =>
    obtain ⟨k₁, v₁⟩ := p
    by_cases h : k₁ = k
    · subst h
      by_cases hq : k₁ = q <;> simp [dictIncr, dlookup, hq]
    · by_cases hq : k₁ = q
      · subst hq
        have hk : k ≠ k₁ := fun hh => h hh.symm
        simp [dictIncr, dlookup, h, hk]
      · simp [dictIncr, dlookup, h, hq, ih]

theorem dlookup_foldl_normIns {α : Type} (l : List (String × α))
    (acc : List (String × α)) (q : String) :
    dlookup q (l.foldl (fun a p => dictInsert a (normKey p.1) p.2) acc)
      = (lastValNorm q l).elim (dlookup q acc) some := by
  induction l generalizing acc with
  | nil => simp [lastValNorm]
  | cons p rest ih =>
    simp only [List.foldl_cons, ih, lastValNorm, dlookup_dictInsert]
    cases lastValNorm q rest with
    | some v => simp
    | none =>
      by_cases hq : normKey p.1 = q <;> simp [hq]

theorem dlookup_normBumps (l : List (String × ℚ)) (q : String) :
    dlookup q (normBumps l) = lastValNorm q l := by
  have h := dlookup_foldl_normIns l [] q
  simp only [dlookup] at h
  rw [normBumps, h]
  cases lastValNorm q l <;> simp

theorem lastValNorm_dictInsert {α : Type} (l : List (String × α)) (k q : String) (v : α)
    (h : q ≠ normKey k) :
    lastValNorm q (dictInsert l k v) = lastValNorm q l := by
  induction l with
  | nil => simp [dictInsert, lastValNorm, h.symm]
  | cons p rest ih =>
    obtain ⟨k₁, v₁⟩ := p
    by_cases hk : k₁ = k
    · subst hk
      simp only [dictInsert, if_pos rfl, lastValNorm]
      cases lastValNorm q rest <;> simp [h.symm]
    · simp only [dictInsert, if_neg hk, lastValNorm, ih]

theorem dlookup_normBumps_dictInsert (l : List (String × ℚ)) (k q : String) (v : ℚ)
    (h : q ≠ normKey k) :
    dlookup q (normBumps (dictInsert l k v)) = dlookup q (normBumps l) := by
  rw [dlookup_normBumps, dlookup_normBumps, lastValNorm_dictInsert l k q v h]

/-! Normalizer lemmas. -/

theorem sum_map_scale_div (l : List (String × ℚ)) (c : ℚ) :
    ((l.map (fun kv => (kv.1, kv.2 * 100 / c))).map Prod.snd).sum
      = (l.map Prod.snd).sum * 100 / c := by
  induction l with
  | nil => simp
  | cons p rest ih =>
    simp only [List.map_cons, List.sum_cons, ih]
    ring

theorem map_fst_normalize (w : List (String × ℚ)) :
    (_normalize w).map Prod.fst = w.map Prod.fst := by
  unfold _normalize
  simp [List.map_map, Function.comp]

theorem sum_normalize_of_ne (w : List (String × ℚ)) (h : (w.map Prod.snd).sum ≠ 0) :
    ((_normalize w).map Prod.snd).sum = 100 := by
  unfold _normalize
  simp only [if_neg h, sum_map_scale_div]
  field_simp

theorem _normalize_def (w : List (String × ℚ)) :
    _normalize w
      = w.map (fun kv =>
          (kv.1, kv.2 * 100 / if (w.map Prod.snd).sum = 0 then 1 else (w.map Prod.snd).sum)) :=
  rfl

theorem normalize_of_all_zero (w : List (String × ℚ)) (h : ∀ p ∈ w, p.2 = 0) :
    _normalize w = w := by
  have hs : (w.map Prod.snd).sum = 0 := by
    apply List.sum_eq_zero
    intro x hx
    obtain ⟨p, hp, rfl⟩ := List.mem_map.mp hx
    exact h p hp
  rw [_normalize_def, if_pos hs]
  have hc : ∀ p ∈ w, (fun kv : String × ℚ => (kv.1, kv.2 * 100 / 1)) p = id p := by
    intro p hp
    have hz := h p hp
    cases p
    simp_all
  rw [List.map_congr_left hc, List.map_id]

theorem normalize_idem_of_ne (w : List (String × ℚ)) (h : (w.map Prod.snd).sum ≠ 0) :
    _normalize (_normalize w) = _normalize w := by
  have h100 : ((_normalize w).map Prod.snd).sum = 100 := sum_normalize_of_ne w h
  rw [_normalize_def (_normalize w), h100, if_neg (by norm_num : ¬((100 : ℚ) = 0))]
  have hc : ∀ p ∈ _normalize w,
      (fun kv : String × ℚ => (kv.1, kv.2 * 100 / 100)) p = id p := by
    intro p _
    cases p
    simp only [id]
    norm_num
  rw [List.map_congr_left hc, List.map_id]

/-! Claim theorems. -/

/-- Claim C1: for every holdings snapshot and bump set, `compute_nav_what_if` reports,
for each holding with weight W and resolved move M, `contribution_bps = W * M` and
`contribution_pct = W * M / 100`, returns `totalReturnPct` as the sum of
`contribution_pct` over all holdings, and, when `baseNav` is known,
`projectedNav = baseNav * (1 + totalReturnPct / 100)`; in particular weight 14.28 with
move +2 gives `contribution_bps` 28.56 and `contribution_pct` 0.2856, and with nav 100 a
`projectedNav` of 100.2856. -/
theorem C1_projection_arithmetic :
    (∀ (d : MAGSData) (bumps : List (String × ℚ)) (an : Option ℚ) (nw : Bool),
      (∀ r ∈ (compute_nav_what_if d bumps an nw).1,
        r.contribBps = r.weight * r.move ∧ r.contribPct = r.weight * r.move / 100) ∧
      (compute_nav_what_if d bumps an nw).2.1
        = ((compute_nav_what_if d bumps an nw).1.map (fun r => r.contribPct)).sum ∧
      (∀ b, (compute_nav_what_if d bumps an nw).2.2.1 = some b →
        (compute_nav_what_if d bumps an nw).2.2.2
          = some (b * (1 + (compute_nav_what_if d bumps an nw).2.1 / 100)))) ∧
    compute_nav_what_if ⟨some 100, "Unknown", [("NVDA", 14.28)], []⟩ [("NVDA", 2)] none false
      = ([⟨"NVDA", 14.28, 2, 28.56, 0.2856⟩], 0.2856, some 100, some 100.2856) := by
  constructor
  · intro d bumps an nw
    refine ⟨?_, ?_, ?_⟩
    · intro r hr
      simp only [compute_nav_what_if] at hr
      obtain ⟨kv, _, rfl⟩ := List.mem_map.mp hr
      simp [rowOf]
    · simp [compute_nav_what_if]
    · intro b hb
      simp only [compute_nav_what_if] at hb ⊢
      cases hnav : d.nav with
      | some v => simp only [hnav] at hb ⊢; injection hb with hb; subst hb; rfl
      | none =>
        cases han : an with
        | some v => simp only [hnav, han] at hb ⊢; injection hb with hb; subst hb; rfl
        | none => simp [hnav, han] at hb
  · norm_num [compute_nav_what_if, rowOf, resolveMove, chosenHoldings, normBumps,
      dictInsert, dlookup]

/-- Claim C1 witness at a concrete input: with `nav = 100` present, the projected NAV is
`baseNav * (1 + totalReturnPct / 100)`. -/
theorem C1_witness :
    (compute_nav_what_if ⟨some 100, "Unknown", [("NVDA", 14.28)], []⟩
        [("NVDA", 2)] none false).2.2.2
      = some (100 * (1 + (compute_nav_what_if ⟨some 100, "Unknown", [("NVDA", 14.28)], []⟩
        [("NVDA", 2)] none false).2.1 / 100)) :=
  (C1_projection_arithmetic.1 ⟨some 100, "Unknown", [("NVDA", 14.28)], []⟩
    [("NVDA", 2)] none false).2.2 100 rfl

/-- Claim C2: `compute_nav_what_if` resolves each holding key's move in priority order:
exact normalized-key match in the normalized bump table, then the ticker the fixed
lookup table resolves the key to, then the wildcard `"ALL"`, then 0; in particular with
weight NVDA 10 and bumps NVDA 5 / ALL 1 the resolved move is 5, and with weight AAPL 20
and bumps ALL -2 the resolved move is -2. -/
theorem C2_bump_priority :
    (∀ (bn : List (String × ℚ)) (k : String) (m : ℚ),
        dlookup (normKey k) bn = some m → resolveMove bn k = m) ∧
    (∀ (bn : List (String × ℚ)) (k t : String) (m : ℚ),
        dlookup (normKey k) bn = none → dlookup (normKey k) NAME_TO_TICKER_NORM = some t →
        dlookup t bn = some m → resolveMove bn k = m) ∧
    (∀ (bn : List (String × ℚ)) (k : String) (m : ℚ),
        dlookup (normKey k) bn = none →
        (∀ t, dlookup (normKey k) NAME_TO_TICKER_NORM = some t → dlookup t bn = none) →
        dlookup "ALL" bn = some m → resolveMove bn k = m) ∧
    (∀ (bn : List (String × ℚ)) (k : String),
        dlookup (normKey k) bn = none →
        (∀ t, dlookup (normKey k) NAME_TO_TICKER_NORM = some t → dlookup t bn = none) →
        dlookup "ALL" bn = none → resolveMove bn k = 0) ∧
    (∀ (d : MAGSData) (bumps : List (String × ℚ)) (an : Option ℚ) (nw : Bool),
        ∀ r ∈ (compute_nav_what_if d bumps an nw).1,
          r.move = resolveMove (normBumps bumps) r.holding) ∧
    compute_nav_what_if ⟨none, "Unknown", [("NVDA", 10)], []⟩
        [("NVDA", 5), ("ALL", 1)] none false
      = ([⟨"NVDA", 10, 5, 50, 0.5⟩], 0.5, none, none) ∧
    compute_nav_what_if ⟨none, "Unknown", [("AAPL", 20)], []⟩ [("ALL", -2)] none false
      = ([⟨"AAPL", 20, -2, -40, -0.4⟩], -0.4, none, none) := by
  refine ⟨?_, ?_, ?_, ?_, ?_, ?_, ?_⟩
  · intro bn k m h
    simp [resolveMove, h]
  · intro bn k t m h₁ h₂ h₃
    simp [resolveMove, h₁, h₂, h₃]
  · intro bn k m h₁ h₂ h₃
    cases hn : dlookup (normKey k) NAME_TO_TICKER_NORM with
    | some t => simp [resolveMove, h₁, hn, h₂ t hn, h₃]
    | none => simp [resolveMove, h₁, hn, h₃]
  · intro bn k h₁ h₂ h₃
    cases hn : dlookup (normKey k) NAME_TO_TICKER_NORM with
    | some t => simp [resolveMove, h₁, hn, h₂ t hn, h₃]
    | none => simp [resolveMove, h₁, hn, h₃]
  · intro d bumps an nw r hr
    simp only [compute_nav_what_if] at hr
    obtain ⟨kv, _, rfl⟩ := List.mem_map.mp hr
    simp [rowOf]
  · norm_num [compute_nav_what_if, rowOf, resolveMove, chosenHoldings, normBumps,
      dictInsert, dlookup]
  · norm_num +decide [compute_nav_what_if, rowOf, resolveMove, chosenHoldings,
      normBumps, dictInsert, dlookup, show normKey "AAPL" = "AAPL" from rfl,
      show normKey "ALL" = "ALL" from rfl,
      show dlookup "AAPL" NAME_TO_TICKER_NORM = none from rfl]

/-- Claim C2 witness at a concrete input: an exact bump entry beats the wildcard. -/
theorem C2_witness : resolveMove [("NVDA", (5 : ℚ)), ("ALL", 1)] "NVDA" = 5 :=
  C2_bump_priority.1 [("NVDA", (5 : ℚ)), ("ALL", 1)] "NVDA" 5 rfl

/-- Claim C3: `compute_nav_what_if` returns `baseNav = snapshot.nav` when present, else
the caller-supplied `assumedNav`; when both are absent the projected NAV is absent. -/
theorem C3_base_nav_propagation :
    (∀ (d : MAGSData) (bumps : List (String × ℚ)) (an : Option ℚ) (nw : Bool) (v : ℚ),
        d.nav = some v → (compute_nav_what_if d bumps an nw).2.2.1 = some v) ∧
    (∀ (d : MAGSData) (bumps : List (String × ℚ)) (an : Option ℚ) (nw : Bool),
        d.nav = none → (compute_nav_what_if d bumps an nw).2.2.1 = an) ∧
    (∀ (d : MAGSData) (bumps : List (String × ℚ)) (nw : Bool),
        d.nav = none → (compute_nav_what_if d bumps none nw).2.2.2 = none) := by
  refine ⟨?_, ?_, ?_⟩
  · intro d bumps an nw v h
    simp [compute_nav_what_if, h]
  · intro d bumps an nw h
    cases an <;> simp [compute_nav_what_if, h]
  · intro d bumps nw h
    simp [compute_nav_what_if, h]

/-- Claim C3 witness at a concrete input: no snapshot NAV and no assumed NAV gives an
absent projection. -/
theorem C3_witness :
    (compute_nav_what_if ⟨none, "Unknown", [("NVDA", 10)], []⟩
        [("NVDA", 5)] none false).2.2.2 = none :=
  C3_base_nav_propagation.2.2 ⟨none, "Unknown", [("NVDA", 10)], []⟩ [("NVDA", 5)] false rfl

/-- Claim C4 counterexample: the mapping A ↦ 5, B ↦ -5 sums to exactly zero, yet
`_normalize` does not return it unchanged — the zero total is replaced by 1 and every
value is scaled by 100. -/
theorem C4_counterexample :
    (([("A", (5 : ℚ)), ("B", -5)].map Prod.snd).sum = 0) ∧
    _normalize [("A", (5 : ℚ)), ("B", -5)] ≠ [("A", (5 : ℚ)), ("B", -5)] := by
  constructor
  · norm_num
  · norm_num [_normalize_def]

/-- Claim C4 (amended): for every weights mapping whose values are all zero (including
the empty mapping), the normalizer does not raise (it is total) and returns the input
unchanged, the zero total being treated as 1. -/
theorem C4_zero_total_guard :
    _normalize ([] : List (String × ℚ)) = [] ∧
    ∀ w : List (String × ℚ), (∀ p ∈ w, p.2 = 0) → _normalize w = w := by
  refine ⟨rfl, ?_⟩
  intro w h
  exact normalize_of_all_zero w h

/-- Claim C4 witness at a concrete all-zero input. -/
theorem C4_witness : _normalize [("K", (0 : ℚ))] = [("K", (0 : ℚ))] :=
  C4_zero_total_guard.2 [("K", (0 : ℚ))] (by intro p hp; simp at hp; simp [hp])

/-- Claim C5 counterexample: the mapping A ↦ 5, B ↦ -5 is not all-zero, yet the values
of its normalization sum to 0, not 100 (its total is zero, so the source divides by the
fallback 1 instead). -/
theorem C5_counterexample :
    (¬ ∀ p ∈ [("A", (5 : ℚ)), ("B", -5)], Prod.snd p = 0) ∧
    ((_normalize [("A", (5 : ℚ)), ("B", -5)]).map Prod.snd).sum ≠ 100 := by
  constructor
  · intro h
    have := h ("A", (5 : ℚ)) (by simp)
    norm_num at this
  · norm_num [_normalize_def]

/-- Claim C5 (amended): for every weights mapping whose values sum to a nonzero total,
the values of `_normalize` of it sum to exactly 100 (exactly, in rational arithmetic). -/
theorem C5_normalize_sums_to_100 (w : List (String × ℚ))
    (h : (w.map Prod.snd).sum ≠ 0) :
    ((_normalize w).map Prod.snd).sum = 100 :=
  sum_normalize_of_ne w h

/-- Claim C5 witness at a concrete input with nonzero total. -/
theorem C5_witness : ((_normalize [("A", (5 : ℚ))]).map Prod.snd).sum = 100 :=
  C5_normalize_sums_to_100 [("A", (5 : ℚ))] (by norm_num)

/-- Claim C7 counterexample: the mapping A ↦ 5, B ↦ -5 is not all-zero, yet
`_normalize` is not idempotent on it — each pass scales the values by another
factor of 100 because the zero total keeps being replaced by 1. -/
theorem C7_counterexample :
    (¬ ∀ p ∈ [("A", (5 : ℚ)), ("B", -5)], Prod.snd p = 0) ∧
    _normalize (_normalize [("A", (5 : ℚ)), ("B", -5)])
      ≠ _normalize [("A", (5 : ℚ)), ("B", -5)] := by
  constructor
  · intro h
    have := h ("A", (5 : ℚ)) (by simp)
    norm_num at this
  · norm_num [_normalize_def]

/-- Claim C7 (amended): `_normalize` is idempotent on every weights mapping whose
values sum to a nonzero total, and on every all-zero mapping. -/
theorem C7_normalize_idempotent (w : List (String × ℚ))
    (h : (w.map Prod.snd).sum ≠ 0 ∨ ∀ p ∈ w, p.2 = 0) :
    _normalize (_normalize w) = _normalize w := by
  cases h with
  | inl h => exact normalize_idem_of_ne w h
  | inr h => rw [normalize_of_all_zero w h, normalize_of_all_zero w h]

/-- Claim C7 witness at a concrete input with nonzero total. -/
theorem C7_witness :
    _normalize (_normalize [("A", (5 : ℚ))]) = _normalize [("A", (5 : ℚ))] :=
  C7_normalize_idempotent [("A", (5 : ℚ))] (Or.inl (by norm_num))

/-! Swap-accumulation lemmas. -/

theorem matched_ticker_sound (sym name t : String)
    (h : matched_ticker sym name = some t) :
    t ∈ MAG7_TICKERS ∧
      (sym = t ∨ (containsSub "SWAP" name = true ∧
        ((dlookup t swap_fragments).getD []).any (fun f => containsSub f name) = true)) := by
  unfold matched_ticker at h
  split at h
  next h₀ =>
    injection h with h
    subst h
    exact ⟨h₀, Or.inl rfl⟩
  next h₀ =>
    split at h
    next hs =>
      iterate 7
        (split at h
         next hc =>
           injection h with h
           subst h
           exact ⟨by decide, Or.inr ⟨hs, by simpa [swap_fragments, dlookup] using hc⟩⟩)
      exact absurd h (by simp)
    next => exact absurd h (by simp)

theorem dlookup_parseStep (acc : List (String × ℚ)) (t : String)
    (r : String × String × ℚ) :
    dlookup t (parseStep acc r)
      = (rowContrib t r).elim (dlookup t acc)
          (fun w => some ((dlookup t acc).getD 0 + w)) := by
  simp only [parseStep, rowContrib]
  split
  next => rfl
  next =>
    split
    next => rfl
    next =>
      cases hm : matched_ticker r.1 (pyUpper r.2.1) with
      | none => rfl
      | some t₁ =>
        rw [dlookup_dictIncr]
        by_cases ht : t₁ = t <;> simp [ht]

theorem dlookup_foldl_parseStep (rows : List (String × String × ℚ))
    (acc : List (String × ℚ)) (t : String) :
    dlookup t (rows.foldl parseStep acc)
      = (dlookup t acc).elim
          (if rows.filterMap (rowContrib t) = [] then none
           else some ((rows.filterMap (rowContrib t)).sum))
          (fun v => some (v + (rows.filterMap (rowContrib t)).sum)) := by
  induction rows generalizing acc with
  | nil =>
    cases h : dlookup t acc <;> simp [h]
  | cons r rows ih =>
    simp only [List.foldl_cons, List.filterMap_cons, ih, dlookup_parseStep]
    cases hc : rowContrib t r with
    | none => rfl
    | some w =>
      cases hacc : dlookup t acc with
      | none => simp [hacc]
      | some v => simp [hacc]; ring

/-- Claim C6: a holding whose (upper-cased) issuer name contains `"SWAP"` is resolved by
scanning the name for the seven companies' name fragments or tickers; holdings resolving
to the same ticker have their weights summed into one combined exposure (the lookup of
any ticker in the accumulated holdings is the sum of the contributions of all rows that
resolve to it); in particular "NVIDIA CORP SWAP" weight 8 and "NVDA EQUITY SWAP" weight
3 combine to NVDA weight 11. -/
theorem C6_swap_accumulation :
    (∀ sym name t, matched_ticker sym name = some t →
      t ∈ MAG7_TICKERS ∧
        (sym = t ∨ (containsSub "SWAP" name = true ∧
          ((dlookup t swap_fragments).getD []).any (fun f => containsSub f name) = true))) ∧
    (∀ (rows : List (String × String × ℚ)) (t : String),
      dlookup t (parse_mags_from_stockanalysis_rows rows)
        = if rows.filterMap (rowContrib t) = [] then none
          else some ((rows.filterMap (rowContrib t)).sum)) ∧
    parse_mags_from_stockanalysis_rows
        [("", "NVIDIA CORP SWAP", 8), ("", "NVDA EQUITY SWAP", 3)] = [("NVDA", 11)] := by
  refine ⟨matched_ticker_sound, ?_, ?_⟩
  · intro rows t
    have h := dlookup_foldl_parseStep rows [] t
    simpa [dlookup] using h
  · norm_num +decide [parse_mags_from_stockanalysis_rows, parseStep, matched_ticker,
      dictIncr, show pyUpper "NVIDIA CORP SWAP" = "NVIDIA CORP SWAP" from rfl,
      show pyUpper "NVDA EQUITY SWAP" = "NVDA EQUITY SWAP" from rfl]

/-- Claim C6 witness at a concrete input: the swap scan resolves "NVDA EQUITY SWAP" to
NVDA even though the symbol column is not a MAG7 ticker. -/
theorem C6_witness :
    "NVDA" ∈ MAG7_TICKERS ∧
      ("" = "NVDA" ∨ (containsSub "SWAP" "NVDA EQUITY SWAP" = true ∧
        ((dlookup "NVDA" swap_fragments).getD []).any
          (fun f => containsSub f "NVDA EQUITY SWAP") = true)) :=
  C6_swap_accumulation.1 "" "NVDA EQUITY SWAP" "NVDA" (by decide)

/-! Bump-text parsing lemmas. -/

theorem dlookup_foldl_bumpsStep (l : List (List Char)) (acc : List (String × ℚ))
    (k : String)
    (h : (∃ p ∈ l, ∃ v, _parse_bump_arg ⟨p⟩ = some (k, v)) ∨ ∃ w, dlookup k acc = some w) :
    ∃ w, dlookup k (l.foldl bumpsStep acc) = some w := by
  induction l generalizing acc with
  | nil =>
    rcases h with ⟨p, hp, _⟩ | h
    · exact absurd hp (List.not_mem_nil p)
    · simpa using h
  | cons p l ih =>
    simp only [List.foldl_cons]
    cases hp : _parse_bump_arg ⟨p⟩ with
    | some kv =>
      have hstep : bumpsStep acc p = dictInsert acc kv.1 kv.2 := by
        simp [bumpsStep, hp]
      rw [hstep]
      by_cases hk : kv.1 = k
      · subst hk
        exact ih _ (Or.inr ⟨kv.2, by rw [dlookup_dictInsert, if_pos rfl]⟩)
      · rcases h with ⟨q, hq, v, hqv⟩ | ⟨w, hw⟩
        · rcases List.mem_cons.mp hq with rfl | hq
          · rw [hp] at hqv
            injection hqv with hqv
            exact absurd (congrArg Prod.fst hqv) hk
          · exact ih _ (Or.inl ⟨q, hq, v, hqv⟩)
        · exact ih _ (Or.inr ⟨w, by rw [dlookup_dictInsert, if_neg hk]; exact hw⟩)
    | none =>
      have hstep : bumpsStep acc p = acc := by simp [bumpsStep, hp]
      rw [hstep]
      rcases h with ⟨q, hq, v, hqv⟩ | h
      · rcases List.mem_cons.mp hq with rfl | hq
        · rw [hp] at hqv
          exact absurd hqv (by simp)
        · exact ih _ (Or.inl ⟨q, hq, v, hqv⟩)
      · exact ih _ (Or.inr h)

/-- Claim C8: splitting bump text on newlines, commas and semicolons, every entry that
matches the grammar KEY then `:` or `=` then a signed decimal with optional trailing `%`
ends up in the parsed table under its trimmed key — "NVDA:+2" and "NVDA=2%" both parse
to NVDA ↦ 2 — while a non-matching entry such as "NVDA 2" is dropped (with the drop
surfaced as a caller-visible warning in the spec-modelled CLI wrapper) without aborting
the remaining entries. -/
theorem C8_bump_text_grammar :
    _parse_bumps_text "NVDA:+2" = [("NVDA", 2)] ∧
    _parse_bumps_text "NVDA=2%" = [("NVDA", 2)] ∧
    _parse_bumps_text "NVDA 2" = [] ∧
    _parse_bumps_text "NVDA 2\nAAPL:3" = [("AAPL", 3)] ∧
    (∀ (block : String) (k : String) (v : ℚ) (p : List Char),
      p ∈ splitSeps block.data → _parse_bump_arg ⟨p⟩ = some (k, v) →
      ∃ w, dlookup k (_parse_bumps_text block) = some w) ∧
    parse_bumps_text_with_warnings "NVDA 2\nAAPL:3" = ([("AAPL", 3)], ["NVDA 2"]) := by
  refine ⟨?_, ?_, ?_, ?_, ?_, ?_⟩
  · norm_num +decide [_parse_bumps_text, bumpsStep, _parse_bump_arg, parseMoveNum,
      breakSep, splitSeps, digitsToNat, dictInsert, isSep, wsp, pyStrip,
      show '2'.toNat = 50 from rfl]
  · norm_num +decide [_parse_bumps_text, bumpsStep, _parse_bump_arg, parseMoveNum,
      breakSep, splitSeps, digitsToNat, dictInsert, isSep, wsp, pyStrip,
      show '2'.toNat = 50 from rfl]
  · norm_num +decide [_parse_bumps_text, bumpsStep, _parse_bump_arg, parseMoveNum,
      breakSep, splitSeps, digitsToNat, dictInsert, isSep, wsp, pyStrip]
  · norm_num +decide [_parse_bumps_text, bumpsStep, _parse_bump_arg, parseMoveNum,
      breakSep, splitSeps, digitsToNat, dictInsert, isSep, wsp, pyStrip,
      show '3'.toNat = 51 from rfl]
  · intro block k v p hp hpv
    by_cases hb : block = ""
    · subst hb
      have hpe : p = [] := by simpa [splitSeps, String.data] using hp
      subst hpe
      exact absurd hpv (by simp [_parse_bump_arg, breakSep])
    · rw [_parse_bumps_text, if_neg hb]
      exact dlookup_foldl_bumpsStep _ [] k (Or.inl ⟨p, hp, v, hpv⟩)
  · norm_num +decide [parse_bumps_text_with_warnings, _parse_bumps_text, bumpsStep,
      _parse_bump_arg, parseMoveNum, breakSep, splitSeps, digitsToNat, dictInsert, isSep,
      wsp, pyStrip, show '3'.toNat = 51 from rfl]

/-- Claim C8 witness at a concrete input: the well-formed entry of a partly malformed
block is present in the parsed table. -/
theorem C8_witness :
    ∃ w, dlookup "AAPL" (_parse_bumps_text "NVDA 2\nAAPL:3") = some w :=
  C8_bump_text_grammar.2.2.2.2.1 "NVDA 2\nAAPL:3" "AAPL" 3
    ("AAPL:3").data (by decide)
    (by norm_num +decide [_parse_bump_arg, parseMoveNum, breakSep, digitsToNat, wsp,
      pyStrip, show '3'.toNat = 51 from rfl])

/-! Heap-model lemmas for the mutation claim. -/

theorem getD_snoc_self (l : Heap) (a : List (String × ℚ)) :
    (l ++ [a]).getD l.length [] = a := by
  rw [List.getD_append_right l [a] [] l.length le_rfl]
  simp

theorem heap_app2 (h : Heap) (a b : List (String × ℚ)) :
    (h ++ [a]) ++ [b] = h ++ ([a] ++ [b]) := by
  simp only [List.append_assoc]

theorem heap_app3 (h : Heap) (a b c : List (String × ℚ)) :
    ((h ++ [a]) ++ [b]) ++ [c] = h ++ ([a] ++ [b] ++ [c]) := by
  simp only [List.append_assoc]

theorem heap_app4 (h : Heap) (a b c e : List (String × ℚ)) :
    (((h ++ [a]) ++ [b]) ++ [c]) ++ [e] = h ++ ([a] ++ [b] ++ [c] ++ [e]) := by
  simp only [List.append_assoc]

theorem compute_heap_extends (h : Heap) (hr nr br : Nat) (nav an : Option ℚ)
    (nw : Bool) :
    ∃ t, (compute_nav_what_if_heap h hr nr br nav an nw).1 = h ++ t := by
  simp only [compute_nav_what_if_heap, _normalize_heap, alloc]
  split
  · split
    · exact ⟨_, heap_app4 h _ _ _ _⟩
    · exact ⟨_, heap_app3 h _ _ _⟩
  · split
    · exact ⟨_, heap_app3 h _ _ _⟩
    · exact ⟨_, heap_app2 h _ _⟩

theorem compute_heap_refines (h : Heap) (hr nr br : Nat) (nav an : Option ℚ) (nw : Bool)
    (hnr : nr < h.length) (hbr : br < h.length) (date : String) :
    (compute_nav_what_if_heap h hr nr br nav an nw).2
      = compute_nav_what_if ⟨nav, date, h.getD hr [], h.getD nr []⟩ (h.getD br []) an nw := by
  have hlt : ∀ (l : Heap) (a : List (String × ℚ)) (i : Nat), i < l.length →
      (l ++ [a]).getD i [] = l.getD i [] := fun l a i hi => List.getD_append l [a] [] i hi
  simp only [compute_nav_what_if_heap, compute_nav_what_if, chosenHoldings,
    _normalize_heap, alloc, getD_snoc_self, hlt _ _ nr hnr]
  split
  next hnw =>
    split
    next hcond =>
      have e1 : ((h ++ [h.getD hr []]) ++ [h.getD nr []]).getD (h ++ [h.getD hr []]).length []
          = h.getD nr [] := getD_snoc_self _ _
      simp only [e1]
      have e2 : (((h ++ [h.getD hr []]) ++ [h.getD nr []]) ++ [_normalize (h.getD nr [])]).getD br []
          = h.getD br [] := by
        rw [hlt _ _ br (by simp; omega), hlt _ _ br (by simp; omega), hlt _ _ br hbr]
      simp only [e2]
      have e3 : ((((h ++ [h.getD hr []]) ++ [h.getD nr []]) ++ [_normalize (h.getD nr [])])
            ++ [normBumps (h.getD br [])]).getD ((h ++ [h.getD hr []]) ++ [h.getD nr []]).length []
          = _normalize (h.getD nr []) := by
        rw [hlt _ _ _ (by simp)]
        exact getD_snoc_self _ _
      have e4 : ((((h ++ [h.getD hr []]) ++ [h.getD nr []]) ++ [_normalize (h.getD nr [])])
            ++ [normBumps (h.getD br [])]).getD
            (((h ++ [h.getD hr []]) ++ [h.getD nr []]) ++ [_normalize (h.getD nr [])]).length []
          = normBumps (h.getD br []) := getD_snoc_self _ _
      simp only [e3, e4]
    next hcond =>
      have e1 : ((h ++ [h.getD hr []]) ++ [_normalize (h.getD hr [])]).getD br []
          = h.getD br [] := by
        rw [hlt _ _ br (by simp; omega), hlt _ _ br hbr]
      simp only [getD_snoc_self, e1]
      have e2 : (((h ++ [h.getD hr []]) ++ [_normalize (h.getD hr [])])
            ++ [normBumps (h.getD br [])]).getD (h ++ [h.getD hr []]).length []
          = _normalize (h.getD hr []) := by
        rw [hlt _ _ _ (by simp)]
        exact getD_snoc_self _ _
      have e3 : (((h ++ [h.getD hr []]) ++ [_normalize (h.getD hr [])])
            ++ [normBumps (h.getD br [])]).getD
            ((h ++ [h.getD hr []]) ++ [_normalize (h.getD hr [])]).length []
          = normBumps (h.getD br []) := getD_snoc_self _ _
      simp only [e2, e3]
  next hnw =>
    split
    next hcond =>
      have e1 : ((h ++ [h.getD hr []]) ++ [h.getD nr []]).getD br [] = h.getD br [] := by
        rw [hlt _ _ br (by simp; omega), hlt _ _ br hbr]
      simp only [e1]
      have e2 : (((h ++ [h.getD hr []]) ++ [h.getD nr []]) ++ [normBumps (h.getD br [])]).getD
            (h ++ [h.getD hr []]).length []
          = h.getD nr [] := by
        rw [hlt _ _ _ (by simp)]
        exact getD_snoc_self _ _
      have e3 : (((h ++ [h.getD hr []]) ++ [h.getD nr []]) ++ [normBumps (h.getD br [])]).getD
            ((h ++ [h.getD hr []]) ++ [h.getD nr []]).length []
          = normBumps (h.getD br []) := getD_snoc_self _ _
      simp only [e2, e3]
    next hcond =>
      have e1 : (h ++ [h.getD hr []]).getD br [] = h.getD br [] := hlt _ _ br hbr
      simp only [e1]
      have e2 : ((h ++ [h.getD hr []]) ++ [normBumps (h.getD br [])]).getD h.length []
          = h.getD hr [] := by
        rw [hlt _ _ _ (by simp)]
        exact getD_snoc_self _ _
      have e3 : ((h ++ [h.getD hr []]) ++ [normBumps (h.getD br [])]).getD
            (h ++ [h.getD hr []]).length []
          = normBumps (h.getD br []) := getD_snoc_self _ _
      simp only [e2, e3]

/-- Claim C9: the normalizer and the scenario engine do not mutate their inputs. On the
heap model, every dict reference that existed before a call to `_normalize` or
`compute_nav_what_if` holds the same value after it (the functions only read their
inputs and allocate fresh dicts; `nav` and `date` are immutable scalars passed by
value). -/
theorem C9_no_mutation (h : Heap) (hr nr br : Nat) (nav an : Option ℚ) (nw : Bool)
    (i : Nat) (hi : i < h.length) :
    (_normalize_heap h hr).1.getD i [] = h.getD i [] ∧
    (compute_nav_what_if_heap h hr nr br nav an nw).1.getD i [] = h.getD i [] := by
  constructor
  · exact List.getD_append h [_normalize (h.getD hr [])] [] i hi
  · obtain ⟨t, ht⟩ := compute_heap_extends h hr nr br nav an nw
    rw [ht]
    exact List.getD_append h t [] i hi

/-- Claim C9 witness at a concrete heap: after running the scenario engine over a
three-dict heap (holdings, by-name holdings, bumps), the input holdings dict at
reference 0 is unchanged. -/
theorem C9_witness :
    (compute_nav_what_if_heap [[("NVDA", 10)], [], [("NVDA", 5)]] 0 1 2
        (some 100) none false).1.getD 0 [] = [("NVDA", 10)] := by
  have h := (C9_no_mutation [[("NVDA", 10)], [], [("NVDA", 5)]] 0 1 2
    (some 100) none false 0 (by norm_num)).2
  rw [h]
  rfl

/-! Noninterference lemmas. -/

theorem resolveMove_dictInsert (bumps : List (String × ℚ)) (k key : String) (v : ℚ)
    (hk : normKey key ≠ normKey k)
    (ht : dlookup (normKey key) NAME_TO_TICKER_NORM ≠ some (normKey k))
    (hall : normKey k ≠ "ALL") :
    resolveMove (normBumps (dictInsert bumps k v)) key
      = resolveMove (normBumps bumps) key := by
  have e1 : dlookup (normKey key) (normBumps (dictInsert bumps k v))
      = dlookup (normKey key) (normBumps bumps) :=
    dlookup_normBumps_dictInsert bumps k (normKey key) v hk
  have e2 : dlookup "ALL" (normBumps (dictInsert bumps k v))
      = dlookup "ALL" (normBumps bumps) :=
    dlookup_normBumps_dictInsert bumps k "ALL" v (Ne.symm hall)
  simp only [resolveMove, e1, e2]
  cases hm : dlookup (normKey key) (normBumps bumps) with
  | some m => rfl
  | none =>
    cases hmt : dlookup (normKey key) NAME_TO_TICKER_NORM with
    | none => rfl
    | some t =>
      have htne : t ≠ normKey k := by
        intro hh
        exact ht (by rw [hmt, hh])
      have e3 : dlookup t (normBumps (dictInsert bumps k v))
          = dlookup t (normBumps bumps) :=
        dlookup_normBumps_dictInsert bumps k t v htne
      simp [e3]

/-- Claim C10: adding a bump entry whose normalized key is not the normalized form of
any key of the chosen weight mapping, is not a ticker any such key resolves to via the
fixed name-to-ticker table, and is not "ALL", leaves every output of
`compute_nav_what_if` (rows, totalReturnPct, baseNav, projectedNav) unchanged. -/
theorem C10_irrelevant_bump_noninterference (d : MAGSData) (bumps : List (String × ℚ))
    (k : String) (v : ℚ) (an : Option ℚ) (nw : Bool)
    (h1 : ∀ key ∈ (chosenHoldings d).map Prod.fst, normKey key ≠ normKey k)
    (h2 : ∀ key ∈ (chosenHoldings d).map Prod.fst,
        dlookup (normKey key) NAME_TO_TICKER_NORM ≠ some (normKey k))
    (h3 : normKey k ≠ "ALL") :
    compute_nav_what_if d (dictInsert bumps k v) an nw
      = compute_nav_what_if d bumps an nw := by
  have hrow : ∀ kv ∈ (if nw then _normalize (chosenHoldings d) else chosenHoldings d),
      rowOf (normBumps (dictInsert bumps k v)) kv = rowOf (normBumps bumps) kv := by
    intro kv hkv
    have hkey : kv.1 ∈ (chosenHoldings d).map Prod.fst := by
      by_cases hnw : nw = true
      · rw [hnw, if_pos rfl] at hkv
        rw [← map_fst_normalize]
        exact List.mem_map.mpr ⟨kv, hkv, rfl⟩
      · simp only [hnw, if_false, Bool.false_eq_true] at hkv
        exact List.mem_map.mpr ⟨kv, hkv, rfl⟩
    simp only [rowOf]
    rw [resolveMove_dictInsert bumps k kv.1 v (h1 kv.1 hkey) (h2 kv.1 hkey) h3]
  simp only [compute_nav_what_if]
  rw [List.map_congr_left hrow]

/-- Claim C10 witness at a concrete input: adding the unrelated bump entry FOO ↦ 3 does
not change the engine's output. -/
theorem C10_witness :
    compute_nav_what_if ⟨some 100, "Unknown", [("NVDA", 10)], []⟩
        (dictInsert [("NVDA", 5)] "FOO" 3) none false
      = compute_nav_what_if ⟨some 100, "Unknown", [("NVDA", 10)], []⟩
        [("NVDA", 5)] none false :=
  C10_irrelevant_bump_noninterference ⟨some 100, "Unknown", [("NVDA", 10)], []⟩
    [("NVDA", 5)] "FOO" 3 none false (by decide) (by decide) (by decide)
